import Mathlib

/-!
Verification of the ODMR demo repository: a stub signal-generator driver
(`sg.py`), the `SpinMeasurements.odmr_sweep` measurement loop
(`demo/simple_odmr/spin_measurements.py`), and the plot widget's averaging
step (`gui_elements.py`).

Real-number arithmetic of the Python/numpy code is embedded as `ℚ`.
Python exceptions are embedded as an `Option String` component of the
result: `some msg` means the call raised `ValueError msg` and, since the
raise happens before any assignment, the state component returned alongside
it is the unchanged receiver.
-/

/-- Shallow embedding of numpy's `linspace start stop num` (endpoint
included): `num` evenly spaced values from `start` to `stop`.  For
`num = n + 2` the `i`-th value is `start + i * (stop - start) / (n + 1)`;
over `ℚ` the final value reduces to exactly `stop`, matching numpy's forced
endpoint. -/
def linspace (start stop : ℚ) : ℕ → List ℚ
  | 0 => []
  | 1 => [start]
  | n + 2 => (List.range (n + 2)).map fun i : ℕ =>
      start + (i : ℚ) * (stop - start) / ((n : ℚ) + 1)

/-- State of the fake signal generator `SigGen` from
`Instruments/Drivers/examples/sg.py`: output-enable flag, amplitude (dBm)
and frequency (Hz), initialised by `__init__`. -/
structure SigGen where
  output_en : Bool
  _amplitude : ℚ
  _frequency : ℚ
  deriving Repr, DecidableEq

/-- SigGen.__init__: output disabled, amplitude 0.0 dBm, frequency 100 kHz. -/
def SigGen.init : SigGen :=
  { output_en := false, _amplitude := 0, _frequency := 100000 }

/-- Getter `SigGen.frequency`. -/
def SigGen.frequency (s : SigGen) : ℚ := s._frequency

/-- Getter `SigGen.amplitude`. -/
def SigGen.amplitude (s : SigGen) : ℚ := s._amplitude

/-- Embedding of `SigGen.set_frequency`: raises `ValueError` when the value
is below 100 kHz or above 10 GHz (leaving the state untouched, since the
raise precedes the assignment), otherwise stores the value. -/
def SigGen.set_frequency (s : SigGen) (value : ℚ) : SigGen × Option String :=
  if value < 100000 ∨ 10000000000 < value then
    (s, some "Frequency must be in range [100kHz, 10GHz].")
  else
    ({ s with _frequency := value }, none)

/-- Embedding of `SigGen.set_amplitude`: raises `ValueError` when the value
is below -30 dBm or above 10 dBm, otherwise stores the value. -/
def SigGen.set_amplitude (s : SigGen) (value : ℚ) : SigGen × Option String :=
  if value < -30 ∨ 10 < value then
    (s, some "Amplitude must be in range [-30dBm, 10dBm].")
  else
    ({ s with _amplitude := value }, none)

/-- Embedding of `SigGen.calibrate`: logs and changes nothing. -/
def SigGen.calibrate (s : SigGen) : SigGen := s

/-- Modelled from the spec: `set_output_en` belongs to the gateway driver
interface used by `odmr_sweep` (spec section 6) but has no implementation in
the `SigGen` stub under src; modelled as setting the output-enable flag. -/
def SigGen.set_output_en (s : SigGen) (value : Bool) : SigGen :=
  { s with output_en := value }

/-- One driver command issued through the instrument gateway by
`odmr_sweep`. -/
inductive DrvCall where
  | set_amplitude (value : ℚ)
  | set_output_en (value : Bool)
  | set_frequency (value : ℚ)
  | cnts (integration_time : ℚ)
  deriving Repr, DecidableEq

namespace SpinMeasurements

/-- The `params` sub-dictionary of a pushed record. -/
structure SweepParams where
  start : ℚ
  stop : ℚ
  num_points : ℕ
  iterations : ℕ
  deriving Repr, DecidableEq

/-- One record pushed to the data server by `odmr_sweep`; its fields are
exactly the keys of the Python dict passed to `odmr_data.push`.  `datasets`
maps a series name to an ordered list of 2×N arrays, each array embedded as
the pair of its two rows. -/
structure Record where
  params : SweepParams
  title : String
  xlabel : String
  ylabel : String
  datasets : List (String × List (List ℚ × List ℚ))
  deriving Repr, DecidableEq

/-- The record literal pushed by `odmr_sweep` after an iteration, with
accumulated data `data`. -/
def mkRecord (start stop : ℚ) (num_points iterations : ℕ)
    (data : List (List ℚ × List ℚ)) : Record :=
  { params := { start := start, stop := stop, num_points := num_points,
                iterations := iterations }
    title := "Optically Detected Magnetic Resonance"
    xlabel := "Frequency (GHz)"
    ylabel := "Counts"
    datasets := [("mydata", data)] }

/-- Inner loop of `odmr_sweep`: for each frequency, `set_frequency` then
`cnts 0.01`.  Returns the trace of issued driver calls together with either
the propagated `ValueError` or the final driver state and collected counts.
The gateway's photon counter is abstracted as the function `cnts` from the
driver's current frequency and the integration time to a count. -/
def sweepPoints (cnts : ℚ → ℚ → ℚ) (s : SigGen) :
    List ℚ → List DrvCall × Except String (SigGen × List ℚ)
  | [] => ([], Except.ok (s, []))
  | freq :: rest =>
    match SigGen.set_frequency s freq with
    | (_, some e) => ([DrvCall.set_frequency freq], Except.error e)
    | (s1, none) =>
      let c := cnts s1._frequency (1/100)
      let r := sweepPoints cnts s1 rest
      (DrvCall.set_frequency freq :: DrvCall.cnts (1/100) :: r.1,
        match r.2 with
        | Except.error e => Except.error e
        | Except.ok (s2, cs) => Except.ok (s2, c :: cs))

/-- Outer loop of `odmr_sweep` over the remaining iterations, carrying the
driver state and the accumulated `data['mydata']` list.  Returns the trace
of issued driver calls, the list of records pushed to the data server, and
`some msg` when an uncaught driver error aborted the sweep. -/
def sweepIters (cnts : ℚ → ℚ → ℚ) (start stop : ℚ)
    (num_points iterations : ℕ) :
    SigGen → List (List ℚ × List ℚ) → ℕ →
      List DrvCall × List Record × Option String
  | _, _, 0 => ([], [], none)
  | s, data, k + 1 =>
    let r := sweepPoints cnts s (linspace start stop num_points)
    match r.2 with
    | Except.error e => (r.1, [], some e)
    | Except.ok (s1, counts) =>
      let data1 := data ++
        [((linspace start stop num_points).map (fun f => f / 1000000000),
          counts)]
      let rest := sweepIters cnts start stop num_points iterations s1 data1 k
      (r.1 ++ rest.1,
       mkRecord start stop num_points iterations data1 :: rest.2.1,
       rest.2.2)

/-- Embedding of `SpinMeasurements.odmr_sweep`: sets the amplitude to
6.5 dBm and enables the output once, then runs `iterations` sweep
iterations, pushing the accumulated history after each.  The driver starts
from the freshly constructed `SigGen.init`; the photon counter is the
abstract `cnts` function.  Result: (driver-call trace, pushed records,
propagated error if any). -/
def odmr_sweep (cnts : ℚ → ℚ → ℚ) (dataset : String) (start stop : ℚ)
    (num_points iterations : ℕ) :
    List DrvCall × List Record × Option String :=
  match SigGen.set_amplitude SigGen.init (13/2) with
  | (_, some e) => ([DrvCall.set_amplitude (13/2)], [], some e)
  | (s1, none) =>
    let s2 := SigGen.set_output_en s1 true
    let r := sweepIters cnts start stop num_points iterations s2 [] iterations
    (DrvCall.set_amplitude (13/2) :: DrvCall.set_output_en true :: r.1, r.2)

/-- Trace of driver calls issued by a run of `odmr_sweep`. -/
def odmrCalls (cnts : ℚ → ℚ → ℚ) (dataset : String) (start stop : ℚ)
    (num_points iterations : ℕ) : List DrvCall :=
  (odmr_sweep cnts dataset start stop num_points iterations).1

/-- Records pushed to the data server by a run of `odmr_sweep`. -/
def odmrRecords (cnts : ℚ → ℚ → ℚ) (dataset : String) (start stop : ℚ)
    (num_points iterations : ℕ) : List Record :=
  (odmr_sweep cnts dataset start stop num_points iterations).2.1

/-- Error propagated out of a run of `odmr_sweep` (`none` when the run
completed). -/
def odmrResult (cnts : ℚ → ℚ → ℚ) (dataset : String) (start stop : ℚ)
    (num_points iterations : ℕ) : Option String :=
  (odmr_sweep cnts dataset start stop num_points iterations).2.2

/-- The 2×N array one completed iteration appends: frequencies in GHz paired
with the counts read at each frequency. -/
def iterArray (cnts : ℚ → ℚ → ℚ) (start stop : ℚ) (num_points : ℕ) :
    List ℚ × List ℚ :=
  ((linspace start stop num_points).map (fun f => f / 1000000000),
   (linspace start stop num_points).map (fun f => cnts f (1/100)))

end SpinMeasurements

namespace CustomODMRPlotWidget

/-- Embedding of `np.average (np.stack rows) (axis 0)` for a nonempty list
of equal-length rows: the element-wise mean. -/
def stackAverage (rows : List (List ℚ)) : List ℚ :=
  match rows with
  | [] => []
  | a :: rest => (rest.foldl (List.zipWith (· + ·)) a).map (fun x => x / rows.length)

/-- Embedding of `CustomODMRPlotWidget.update` on the accumulated
`datasets['mydata']` series: stacks the iteration arrays, averages along the
iteration axis, and returns the (frequencies, counts) pair handed to
`set_data`. -/
def update (mydata : List (List ℚ × List ℚ)) : List ℚ × List ℚ :=
  (stackAverage (mydata.map Prod.fst), stackAverage (mydata.map Prod.snd))

end CustomODMRPlotWidget

/-- One call of the `SigGen` public interface (the methods defined in
`sg.py`). -/
inductive SGCall where
  | set_frequency (value : ℚ)
  | set_amplitude (value : ℚ)
  | frequency
  | amplitude
  | calibrate
  deriving Repr, DecidableEq

/-- State reached after one `SigGen` call (a raising call leaves the state
as it was; getters read without side effects). -/
def SigGen.step (s : SigGen) : SGCall → SigGen
  | SGCall.set_frequency v => (s.set_frequency v).1
  | SGCall.set_amplitude v => (s.set_amplitude v).1
  | SGCall.frequency => s
  | SGCall.amplitude => s
  | SGCall.calibrate => s.calibrate

/-- State reached after a finite sequence of `SigGen` calls. -/
def SigGen.runCalls (s : SigGen) (calls : List SGCall) : SigGen :=
  calls.foldl SigGen.step s

/-! ## Lemmas about `linspace` -/

lemma linspace_length (start stop : ℚ) (n : ℕ) : (linspace start stop n).length = n := by
  match n with
  | 0 => rfl
  | 1 => rfl
  | m + 2 => simp [linspace]

lemma linspace_first (start stop : ℚ) (m : ℕ) :
    (linspace start stop (m + 2))[0]? = some start := by
  rw [linspace, List.getElem?_map, List.getElem?_range (by omega : 0 < m + 2)]
  norm_num

lemma linspace_last (start stop : ℚ) (m : ℕ) :
    (linspace start stop (m + 2)).getLast? = some stop := by
  have h0 : ((m : ℚ) + 1) ≠ 0 := by positivity
  have hlen : (linspace start stop (m + 2)).length = m + 2 := linspace_length _ _ _
  rw [List.getLast?_eq_getElem? _, hlen]
  have h1 : m + 2 - 1 = m + 1 := by omega
  rw [h1, linspace, List.getElem?_map, List.getElem?_range (by omega : m + 1 < m + 2)]
  have h2 : ((m + 1 : ℕ) : ℚ) = (m : ℚ) + 1 := by push_cast; ring
  simp only [Option.map_some', Option.some_inj, h2]
  field_simp

lemma linspace_chain (start stop : ℚ) (m : ℕ) (hle : start ≤ stop) :
    List.Chain' (· ≤ ·) (linspace start stop (m + 2)) := by
  rw [linspace, List.chain'_map]
  refine (List.chain'_range_succ _ (m + 1)).mpr fun i hi => ?_
  have hd : 0 ≤ (stop - start) / ((m : ℚ) + 1) :=
    div_nonneg (by linarith) (by positivity)
  push_cast
  rw [mul_div_assoc, mul_div_assoc]
  have := mul_le_mul_of_nonneg_right (show (i : ℚ) ≤ (i : ℚ) + 1 by linarith) hd
  linarith

/-- C1 (amended with the hypothesis `start ≤ stop`): for `num_points ≥ 2`
and `start ≤ stop`, the frequency sequence generated by `odmr_sweep`
(`np.linspace start stop num_points`) has length `num_points`, first element
`start`, last element `stop`, and is monotonically non-decreasing. -/
theorem linspace_spec (start stop : ℚ) (n : ℕ) (hn : 2 ≤ n) (hle : start ≤ stop) :
    (linspace start stop n).length = n ∧
    (linspace start stop n)[0]? = some start ∧
    (linspace start stop n).getLast? = some stop ∧
    List.Chain' (· ≤ ·) (linspace start stop n) := by
  obtain ⟨m, rfl⟩ : ∃ m, n = m + 2 := ⟨n - 2, by omega⟩
  exact ⟨linspace_length _ _ _, linspace_first _ _ _, linspace_last _ _ _,
    linspace_chain _ _ _ hle⟩

/-- Witness for `linspace_spec` at `start = 2`, `stop = 8`, `num_points = 4`. -/
theorem linspace_spec_witness :
    (2 ≤ 4 ∧ (2 : ℚ) ≤ 8) ∧
    ((linspace 2 8 4).length = 4 ∧ (linspace 2 8 4)[0]? = some 2 ∧
     (linspace 2 8 4).getLast? = some 8 ∧
     List.Chain' (· ≤ ·) (linspace 2 8 4)) :=
  ⟨⟨by norm_num, by norm_num⟩, linspace_spec 2 8 4 (by norm_num) (by norm_num)⟩

/-- Counterexample to C1 as stated: at `start = 1 > stop = 0` with
`num_points = 2` the generated sequence is `[1, 0]`, which is not
monotonically non-decreasing, so the unrestricted claim fails. -/
theorem linspace_claim_counterexample :
    ¬ ((linspace 1 0 2).length = 2 ∧ (linspace 1 0 2)[0]? = some 1 ∧
       (linspace 1 0 2).getLast? = some 0 ∧
       List.Chain' (· ≤ ·) (linspace 1 0 2)) := by
  intro h
  have hc := h.2.2.2
  have : linspace 1 0 2 = [1, 0] := by
    norm_num [linspace, List.range_succ]
  rw [this] at hc
  have := List.chain'_cons.mp hc
  norm_num at this

/-! ## Driver setter contracts -/

/-- C2: `set_frequency v` raises exactly when `v < 100e3` or `v > 10e9`; a
rejected call leaves the whole driver state (in particular the stored
frequency) unchanged, and an accepted call stores exactly `v`. -/
theorem set_frequency_spec (s : SigGen) (v : ℚ) :
    (((s.set_frequency v).2).isSome ↔ (v < 100000 ∨ 10000000000 < v)) ∧
    (((s.set_frequency v).2).isSome → (s.set_frequency v).1 = s) ∧
    ((s.set_frequency v).2 = none → ((s.set_frequency v).1)._frequency = v) := by
  by_cases h : v < 100000 ∨ 10000000000 < v <;>
    simp [SigGen.set_frequency, h]

/-- Witness for `set_frequency_spec`: on the fresh driver, `0` is rejected
without touching the state and `1000000` is accepted and stored. -/
theorem set_frequency_spec_witness :
    ((SigGen.init.set_frequency 0).2).isSome ∧
    (SigGen.init.set_frequency 0).1 = SigGen.init ∧
    ((SigGen.init.set_frequency 1000000).2 = none →
      ((SigGen.init.set_frequency 1000000).1)._frequency = 1000000) :=
  ⟨((set_frequency_spec SigGen.init 0).1).mpr (Or.inl (by norm_num)),
   (set_frequency_spec SigGen.init 0).2.1
     (((set_frequency_spec SigGen.init 0).1).mpr (Or.inl (by norm_num))),
   (set_frequency_spec SigGen.init 1000000).2.2⟩

/-- C3: `set_amplitude v` raises exactly when `v < -30` or `v > 10`; a
rejected call leaves the whole driver state (in particular the stored
amplitude) unchanged, and an accepted call stores exactly `v`. -/
theorem set_amplitude_spec (s : SigGen) (v : ℚ) :
    (((s.set_amplitude v).2).isSome ↔ (v < -30 ∨ 10 < v)) ∧
    (((s.set_amplitude v).2).isSome → (s.set_amplitude v).1 = s) ∧
    ((s.set_amplitude v).2 = none → ((s.set_amplitude v).1)._amplitude = v) := by
  by_cases h : v < -30 ∨ 10 < v <;>
    simp [SigGen.set_amplitude, h]

/-- Witness for `set_amplitude_spec`: on the fresh driver, `11` is rejected
without touching the state and `-5` is accepted and stored. -/
theorem set_amplitude_spec_witness :
    ((SigGen.init.set_amplitude 11).2).isSome ∧
    (SigGen.init.set_amplitude 11).1 = SigGen.init ∧
    ((SigGen.init.set_amplitude (-5)).2 = none →
      ((SigGen.init.set_amplitude (-5)).1)._amplitude = -5) :=
  ⟨((set_amplitude_spec SigGen.init 11).1).mpr (Or.inr (by norm_num)),
   (set_amplitude_spec SigGen.init 11).2.1
     (((set_amplitude_spec SigGen.init 11).1).mpr (Or.inr (by norm_num))),
   (set_amplitude_spec SigGen.init (-5)).2.2⟩

/-! ## Closed forms for the sweep loop -/

namespace SpinMeasurements

lemma sweepPoints_ok (cnts : ℚ → ℚ → ℚ) (freqs : List ℚ)
    (h : ∀ f ∈ freqs, ¬(f < 100000 ∨ 10000000000 < f)) :
    ∀ s : SigGen,
    sweepPoints cnts s freqs =
      (freqs.flatMap (fun f => [DrvCall.set_frequency f, DrvCall.cnts (1/100)]),
       Except.ok (freqs.foldl (fun t f => { t with _frequency := f }) s,
                  freqs.map (fun f => cnts f (1/100)))) := by
  induction freqs with
  | nil => intro s; simp [sweepPoints]
  | cons f rest ih =>
    intro s
    have hf : ¬(f < 100000 ∨ 10000000000 < f) := h f (List.mem_cons_self f rest)
    have hrest : ∀ g ∈ rest, ¬(g < 100000 ∨ 10000000000 < g) :=
      fun g hg => h g (List.mem_cons_of_mem _ hg)
    simp only [sweepPoints, SigGen.set_frequency, if_neg hf, ih hrest]
    simp [List.flatMap_cons]

lemma sweepPoints_error (cnts : ℚ → ℚ → ℚ) (freqs : List ℚ)
    (h : ∃ f ∈ freqs, f < 100000 ∨ 10000000000 < f) :
    ∀ s : SigGen,
    (sweepPoints cnts s freqs).2 =
      Except.error "Frequency must be in range [100kHz, 10GHz]." := by
  induction freqs with
  | nil => simp at h
  | cons f rest ih =>
    intro s
    by_cases hf : f < 100000 ∨ 10000000000 < f
    · simp only [sweepPoints, SigGen.set_frequency, if_pos hf]
    · have hrest : ∃ g ∈ rest, g < 100000 ∨ 10000000000 < g := by
        obtain ⟨g, hg, hbad⟩ := h
        rcases List.mem_cons.mp hg with rfl | hmem
        · exact absurd hbad hf
        · exact ⟨g, hmem, hbad⟩
      simp only [sweepPoints, SigGen.set_frequency, if_neg hf]
      rw [ih hrest]

lemma sweepPoints_calls (cnts : ℚ → ℚ → ℚ) (freqs : List ℚ) :
    ∀ s : SigGen, ∀ e ∈ (sweepPoints cnts s freqs).1,
      (∃ v, e = DrvCall.set_frequency v) ∨ ∃ t, e = DrvCall.cnts t := by
  induction freqs with
  | nil => intro s e he; simp [sweepPoints] at he
  | cons f rest ih =>
    intro s e he
    by_cases hf : f < 100000 ∨ 10000000000 < f
    · simp only [sweepPoints, SigGen.set_frequency, if_pos hf] at he
      simp at he
      exact Or.inl ⟨f, he⟩
    · simp only [sweepPoints, SigGen.set_frequency, if_neg hf] at he
      rcases List.mem_cons.mp he with rfl | he2
      · exact Or.inl ⟨f, rfl⟩
      · rcases List.mem_cons.mp he2 with rfl | he3
        · exact Or.inr ⟨1/100, rfl⟩
        · exact ih _ e he3

lemma sweepIters_ok (cnts : ℚ → ℚ → ℚ) (start stop : ℚ) (n iters : ℕ)
    (h : ∀ f ∈ linspace start stop n, ¬(f < 100000 ∨ 10000000000 < f)) :
    ∀ (k : ℕ) (s : SigGen) (data : List (List ℚ × List ℚ)),
    sweepIters cnts start stop n iters s data k =
      ((List.replicate k ((linspace start stop n).flatMap
          (fun f => [DrvCall.set_frequency f, DrvCall.cnts (1/100)]))).flatten,
       (List.range k).map (fun j =>
          mkRecord start stop n iters
            (data ++ List.replicate (j + 1) (iterArray cnts start stop n))),
       none) := by
  intro k
  induction k with
  | zero => intro s data; simp [sweepIters]
  | succ k ih =>
    intro s data
    simp only [sweepIters, sweepPoints_ok cnts _ h]
    rw [ih]
    refine Prod.ext ?_ (Prod.ext ?_ rfl)
    · simp [List.replicate_succ]
    · simp only [List.range_succ_eq_map, List.map_cons, List.map_map]
      refine congrArg₂ _ ?_ ?_
      · simp [iterArray, List.replicate_succ]
      · refine List.map_congr_left fun j hj => ?_
        simp [Function.comp, iterArray, List.replicate_succ, List.append_assoc]

end SpinMeasurements

namespace SpinMeasurements

lemma odmr_sweep_eq (cnts : ℚ → ℚ → ℚ) (dataset : String) (start stop : ℚ)
    (n iters : ℕ) :
    odmr_sweep cnts dataset start stop n iters =
      (DrvCall.set_amplitude (13/2) :: DrvCall.set_output_en true ::
        (sweepIters cnts start stop n iters
          { output_en := true, _amplitude := 13/2, _frequency := 100000 }
          [] iters).1,
       (sweepIters cnts start stop n iters
          { output_en := true, _amplitude := 13/2, _frequency := 100000 }
          [] iters).2) := by
  rw [odmr_sweep, SigGen.set_amplitude, if_neg (by norm_num)]
  rfl

lemma odmr_sweep_ok (cnts : ℚ → ℚ → ℚ) (dataset : String) (start stop : ℚ)
    (n iters : ℕ)
    (h : ∀ f ∈ linspace start stop n, ¬(f < 100000 ∨ 10000000000 < f)) :
    odmr_sweep cnts dataset start stop n iters =
      (DrvCall.set_amplitude (13/2) :: DrvCall.set_output_en true ::
        (List.replicate iters ((linspace start stop n).flatMap
          (fun f => [DrvCall.set_frequency f, DrvCall.cnts (1/100)]))).flatten,
       (List.range iters).map (fun j =>
          mkRecord start stop n iters
            (List.replicate (j + 1) (iterArray cnts start stop n))),
       none) := by
  rw [odmr_sweep_eq, sweepIters_ok cnts start stop n iters h iters _ []]
  simp

lemma odmr_calls_eq (cnts : ℚ → ℚ → ℚ) (dataset : String) (start stop : ℚ)
    (n iters : ℕ) :
    odmrCalls cnts dataset start stop n iters =
      DrvCall.set_amplitude (13/2) :: DrvCall.set_output_en true ::
        (sweepIters cnts start stop n iters
          { output_en := true, _amplitude := 13/2, _frequency := 100000 }
          [] iters).1 := by
  rw [odmrCalls, odmr_sweep_eq]

lemma sweepIters_calls (cnts : ℚ → ℚ → ℚ) (start stop : ℚ) (n iters : ℕ) :
    ∀ (k : ℕ) (s : SigGen) (data : List (List ℚ × List ℚ)),
    ∀ e ∈ (sweepIters cnts start stop n iters s data k).1,
      (∃ v, e = DrvCall.set_frequency v) ∨ ∃ t, e = DrvCall.cnts t := by
  intro k
  induction k with
  | zero => intro s data e he; simp [sweepIters] at he
  | succ k ih =>
    intro s data e he
    rcases hm : sweepPoints cnts s (linspace start stop n) with ⟨evs, res⟩
    have hevs : ∀ e ∈ evs, (∃ v, e = DrvCall.set_frequency v) ∨ ∃ t, e = DrvCall.cnts t := by
      intro e2 he2
      exact sweepPoints_calls cnts (linspace start stop n) s e2 (by rw [hm] at *; exact he2)
    cases res with
    | error msg =>
      simp only [sweepIters, hm] at he
      exact hevs e he
    | ok pr =>
      rcases pr with ⟨s1, counts⟩
      simp only [sweepIters, hm] at he
      rcases List.mem_append.mp he with h1 | h2
      · exact hevs e h1
      · exact ih _ _ e h2

lemma odmr_sweep_err (cnts : ℚ → ℚ → ℚ) (dataset : String) (start stop : ℚ)
    (n iters : ℕ) (hpos : 1 ≤ iters)
    (hbad : ∃ f ∈ linspace start stop n, f < 100000 ∨ 10000000000 < f) :
    odmrRecords cnts dataset start stop n iters = [] ∧
    odmrResult cnts dataset start stop n iters =
      some "Frequency must be in range [100kHz, 10GHz]." := by
  obtain ⟨k, rfl⟩ : ∃ k, iters = k + 1 := ⟨iters - 1, by omega⟩
  rw [odmrRecords, odmrResult, odmr_sweep_eq]
  simp only [sweepIters, sweepPoints_error cnts (linspace start stop n) hbad]
  simp

end SpinMeasurements

/-! ## Claim theorems about the sweep loop -/

namespace SpinMeasurements

/-- C4: a completed run of `odmr_sweep` pushes exactly one record per
iteration; the record pushed after the k-th iteration carries exactly
the keys params/title/xlabel/ylabel/datasets (the fields of `Record`), and
its `datasets` entry `mydata` is the full accumulated history: exactly k
equal arrays in iteration order (each record's list extends the previous
one), each of shape 2×num_points. -/
theorem odmr_sweep_records (cnts : ℚ → ℚ → ℚ) (dataset : String)
    (start stop : ℚ) (n iters : ℕ)
    (hsucc : odmrResult cnts dataset start stop n iters = none) :
    (odmrRecords cnts dataset start stop n iters).length = iters ∧
    (∀ k, k < iters →
      (odmrRecords cnts dataset start stop n iters)[k]? =
        some (mkRecord start stop n iters
          (List.replicate (k + 1) (iterArray cnts start stop n)))) ∧
    (iterArray cnts start stop n).1.length = n ∧
    (iterArray cnts start stop n).2.length = n := by
  have hshape1 : (iterArray cnts start stop n).1.length = n := by
    simp [iterArray, linspace_length]
  have hshape2 : (iterArray cnts start stop n).2.length = n := by
    simp [iterArray, linspace_length]
  by_cases hval : ∀ f ∈ linspace start stop n, ¬(f < 100000 ∨ 10000000000 < f)
  · have hrec : odmrRecords cnts dataset start stop n iters =
        (List.range iters).map (fun j => mkRecord start stop n iters
          (List.replicate (j + 1) (iterArray cnts start stop n))) := by
      rw [odmrRecords, odmr_sweep_ok cnts dataset start stop n iters hval]
    refine ⟨by rw [hrec]; simp, fun k hk => ?_, hshape1, hshape2⟩
    rw [hrec, List.getElem?_map, List.getElem?_range hk]
    rfl
  · rcases Nat.eq_zero_or_pos iters with rfl | hpos
    · refine ⟨?_, fun k hk => absurd hk (by omega), hshape1, hshape2⟩
      rw [odmrRecords, odmr_sweep_eq]
      rfl
    · exfalso
      push_neg at hval
      obtain ⟨f, hf, hbad⟩ := hval
      have herr := odmr_sweep_err cnts dataset start stop n iters hpos ⟨f, hf, hbad⟩
      rw [hsucc] at herr
      exact Option.noConfusion herr.2

/-- Witness for `odmr_sweep_records`: `iterations = 3`, `num_points = 5`
with a constant-count driver; the run completes, pushes 3 records, and the
final record holds 3 arrays of shape 2×5. -/
theorem odmr_sweep_records_witness :
    odmrResult (fun _ _ => 10) "odmr" 100000 200000 5 3 = none ∧
    (odmrRecords (fun _ _ => 10) "odmr" 100000 200000 5 3).length = 3 ∧
    (odmrRecords (fun _ _ => 10) "odmr" 100000 200000 5 3)[2]? =
      some (mkRecord 100000 200000 5 3
        (List.replicate 3 (iterArray (fun _ _ => 10) 100000 200000 5))) := by
  have hval : ∀ f ∈ linspace 100000 200000 5, ¬(f < 100000 ∨ 10000000000 < f) := by
    norm_num [linspace, List.range_succ]
  have hsucc : odmrResult (fun _ _ => 10) "odmr" 100000 200000 5 3 = none := by
    rw [odmrResult, odmr_sweep_ok _ _ _ _ _ _ hval]
  exact ⟨hsucc, (odmr_sweep_records _ _ _ _ _ _ hsucc).1,
    (odmr_sweep_records _ _ _ _ _ _ hsucc).2.1 2 (by norm_num)⟩

/-- C5: `odmr_sweep` on `('odmr', 3e9, 4e9, 5, 1)` with a driver returning
the constant count 10 completes and pushes exactly one record whose
`datasets` entry `mydata` is the single array pairing the swept frequencies
in GHz `[3, 3.25, 3.5, 3.75, 4]` with the counts `[10, 10, 10, 10, 10]`. -/
theorem odmr_sweep_example :
    (odmrRecords (fun _ _ => 10) "odmr" 3000000000 4000000000 5 1).map
        Record.datasets =
      [[("mydata", [([3, 13/4, 7/2, 15/4, 4], [10, 10, 10, 10, 10])])]] ∧
    odmrResult (fun _ _ => 10) "odmr" 3000000000 4000000000 5 1 = none := by
  have hval : ∀ f ∈ linspace 3000000000 4000000000 5,
      ¬(f < 100000 ∨ 10000000000 < f) := by
    norm_num [linspace, List.range_succ]
  constructor
  · rw [odmrRecords, odmr_sweep_ok _ _ _ _ _ _ hval]
    norm_num [mkRecord, iterArray, linspace, List.range_succ]
  · rw [odmrResult, odmr_sweep_ok _ _ _ _ _ _ hval]

/-- C7: every run of `odmr_sweep` issues `set_amplitude 6.5` and
`set_output_en true` exactly once each, as the first two driver commands and
before any iteration; every later command is a `set_frequency` or a `cnts`
(no amplitude or output-enable command issued inside the loop). -/
theorem odmr_sweep_setup_once (cnts : ℚ → ℚ → ℚ) (dataset : String)
    (start stop : ℚ) (n iters : ℕ) :
    ∃ tail, odmrCalls cnts dataset start stop n iters =
      DrvCall.set_amplitude (13/2) :: DrvCall.set_output_en true :: tail ∧
      ∀ e ∈ tail, (∃ v, e = DrvCall.set_frequency v) ∨ ∃ t, e = DrvCall.cnts t :=
  ⟨_, odmr_calls_eq cnts dataset start stop n iters,
    fun e he => sweepIters_calls cnts start stop n iters iters _ [] e he⟩

/-- C8: when `num_points ≥ 1` of the swept frequencies lies outside the
driver's accepted range and at least one iteration is requested, the
driver's `ValueError` propagates uncaught out of `odmr_sweep` and no record
is pushed: the failure strikes the first iteration (every iteration sweeps
the same frequencies), so the pushed records are exactly those of the zero
completed iterations. -/
theorem odmr_error_propagates (cnts : ℚ → ℚ → ℚ) (dataset : String)
    (start stop : ℚ) (n iters : ℕ) (hpos : 1 ≤ iters)
    (hbad : ∃ f ∈ linspace start stop n, f < 100000 ∨ 10000000000 < f) :
    odmrResult cnts dataset start stop n iters =
      some "Frequency must be in range [100kHz, 10GHz]." ∧
    odmrRecords cnts dataset start stop n iters = [] := by
  obtain ⟨h1, h2⟩ := odmr_sweep_err cnts dataset start stop n iters hpos hbad
  exact ⟨h2, h1⟩

/-- Witness for `odmr_error_propagates`: sweeping `[0, 0]` (frequency 0 Hz
is below 100 kHz) aborts the run with the driver's message and pushes
nothing. -/
theorem odmr_error_propagates_witness :
    (1 ≤ 1 ∧ ∃ f ∈ linspace 0 0 1, f < 100000 ∨ 10000000000 < f) ∧
    odmrResult (fun _ _ => 0) "odmr" 0 0 1 1 =
      some "Frequency must be in range [100kHz, 10GHz]." ∧
    odmrRecords (fun _ _ => 0) "odmr" 0 0 1 1 = [] :=
  ⟨⟨le_refl 1, ⟨0, by norm_num [linspace]⟩⟩,
   odmr_error_propagates (fun _ _ => 0) "odmr" 0 0 1 1 (le_refl 1)
     ⟨0, by norm_num [linspace]⟩⟩

/-- C10: at `num_points = 1` the generated frequency sequence is the single
element `[start]` (the stop frequency is never visited), so a run with a
valid `start` completes and the record pushed after the k-th iteration
accumulates k copies of the array `[[start/1e9], [count at start]]`. -/
theorem odmr_single_point (cnts : ℚ → ℚ → ℚ) (dataset : String)
    (start stop : ℚ) (iters : ℕ)
    (h : ¬(start < 100000 ∨ 10000000000 < start)) :
    linspace start stop 1 = [start] ∧
    odmrResult cnts dataset start stop 1 iters = none ∧
    (odmrRecords cnts dataset start stop 1 iters).length = iters ∧
    ∀ k, k < iters →
      (odmrRecords cnts dataset start stop 1 iters)[k]? =
        some (mkRecord start stop 1 iters
          (List.replicate (k + 1) ([start / 1000000000], [cnts start (1/100)]))) := by
  have hval : ∀ f ∈ linspace start stop 1, ¬(f < 100000 ∨ 10000000000 < f) := by
    intro f hf
    have : f = start := by simpa [linspace] using hf
    rw [this]
    exact h
  have harr : iterArray cnts start stop 1 =
      ([start / 1000000000], [cnts start (1/100)]) := rfl
  have hsucc : odmrResult cnts dataset start stop 1 iters = none := by
    rw [odmrResult, odmr_sweep_ok _ _ _ _ _ _ hval]
  have hrec : odmrRecords cnts dataset start stop 1 iters =
      (List.range iters).map (fun j => mkRecord start stop 1 iters
        (List.replicate (j + 1) (iterArray cnts start stop 1))) := by
    rw [odmrRecords, odmr_sweep_ok _ _ _ _ _ _ hval]
  refine ⟨rfl, hsucc, by rw [hrec]; simp, fun k hk => ?_⟩
  rw [hrec, List.getElem?_map, List.getElem?_range hk]
  simp only [Option.map_some']
  rw [harr]

/-- Witness for `odmr_single_point`: `start = 1 MHz` (valid), `stop = 0`
(invalid but never visited), 2 iterations with a constant-count driver. -/
theorem odmr_single_point_witness :
    ¬((1000000 : ℚ) < 100000 ∨ 10000000000 < (1000000 : ℚ)) ∧
    linspace 1000000 0 1 = [1000000] ∧
    odmrResult (fun _ _ => 7) "odmr" 1000000 0 1 2 = none ∧
    (odmrRecords (fun _ _ => 7) "odmr" 1000000 0 1 2).length = 2 ∧
    (odmrRecords (fun _ _ => 7) "odmr" 1000000 0 1 2)[1]? =
      some (mkRecord 1000000 0 1 2
        (List.replicate 2 ([1000000 / 1000000000], [7]))) := by
  have h : ¬((1000000 : ℚ) < 100000 ∨ 10000000000 < (1000000 : ℚ)) := by norm_num
  obtain ⟨h1, h2, h3, h4⟩ := odmr_single_point (fun _ _ => 7) "odmr" 1000000 0 2 h
  exact ⟨h, h1, h2, h3, h4 1 (by norm_num)⟩

end SpinMeasurements

/-- C6: the plot widget's update step averages the accumulated iteration
arrays element-wise along the iteration axis: on the series
`[[1,2],[10,20]]` and `[[1,2],[30,40]]` the curve handed to `set_data` has
x-values `[1, 2]` and y-values `[20, 30]`. -/
theorem plot_update_average :
    CustomODMRPlotWidget.update [([1, 2], [10, 20]), ([1, 2], [30, 40])] =
      ([1, 2], [20, 30]) := by
  norm_num [CustomODMRPlotWidget.update, CustomODMRPlotWidget.stackAverage,
    List.zipWith]

/-! ## Claim theorems about the driver state invariant -/

lemma siggen_step_inv (s : SigGen) (c : SGCall)
    (h : -30 ≤ s._amplitude ∧ s._amplitude ≤ 10 ∧
         100000 ≤ s._frequency ∧ s._frequency ≤ 10000000000) :
    -30 ≤ (s.step c)._amplitude ∧ (s.step c)._amplitude ≤ 10 ∧
    100000 ≤ (s.step c)._frequency ∧ (s.step c)._frequency ≤ 10000000000 := by
  cases c with
  | set_frequency v =>
    by_cases hv : v < 100000 ∨ 10000000000 < v
    · simpa [SigGen.step, SigGen.set_frequency, hv] using h
    · have hv1 : 100000 ≤ v := not_lt.mp (not_or.mp hv).1
      have hv2 : v ≤ 10000000000 := not_lt.mp (not_or.mp hv).2
      simp only [SigGen.step, SigGen.set_frequency, if_neg hv]
      exact ⟨h.1, h.2.1, hv1, hv2⟩
  | set_amplitude v =>
    by_cases hv : v < -30 ∨ 10 < v
    · simpa [SigGen.step, SigGen.set_amplitude, hv] using h
    · have hv1 : -30 ≤ v := not_lt.mp (not_or.mp hv).1
      have hv2 : v ≤ 10 := not_lt.mp (not_or.mp hv).2
      simp only [SigGen.step, SigGen.set_amplitude, if_neg hv]
      exact ⟨hv1, hv2, h.2.2.1, h.2.2.2⟩
  | frequency => exact h
  | amplitude => exact h
  | calibrate => exact h

lemma siggen_runCalls_inv : ∀ (calls : List SGCall) (s : SigGen),
    (-30 ≤ s._amplitude ∧ s._amplitude ≤ 10 ∧
     100000 ≤ s._frequency ∧ s._frequency ≤ 10000000000) →
    (-30 ≤ (s.runCalls calls)._amplitude ∧ (s.runCalls calls)._amplitude ≤ 10 ∧
     100000 ≤ (s.runCalls calls)._frequency ∧
     (s.runCalls calls)._frequency ≤ 10000000000)
  | [], _, h => h
  | c :: rest, s, h =>
    siggen_runCalls_inv rest (s.step c) (siggen_step_inv s c h)

/-- C9: a freshly constructed `SigGen` has output disabled, amplitude 0.0
and frequency 100 kHz, and after every finite sequence of `set_frequency`,
`set_amplitude`, `frequency`, `amplitude` and `calibrate` calls (raising
calls included) the stored amplitude stays within [-30, 10] dBm and the
stored frequency within [100 kHz, 10 GHz]. -/
theorem siggen_state_invariant :
    SigGen.init.output_en = false ∧ SigGen.init._amplitude = 0 ∧
    SigGen.init._frequency = 100000 ∧
    ∀ calls : List SGCall,
      -30 ≤ (SigGen.runCalls SigGen.init calls)._amplitude ∧
      (SigGen.runCalls SigGen.init calls)._amplitude ≤ 10 ∧
      100000 ≤ (SigGen.runCalls SigGen.init calls)._frequency ∧
      (SigGen.runCalls SigGen.init calls)._frequency ≤ 10000000000 :=
  ⟨rfl, rfl, rfl, fun calls =>
    siggen_runCalls_inv calls SigGen.init (by norm_num [SigGen.init])⟩
